import Mathlib

/-!
Verification of the CLMM off-chain simulation core of this repository.

The development shallowly embeds the two modules under src (the rewarder
accrual module and the swap module) in Lean.  Machine integers (u128,
Q64.64 fixed point) are embedded as Nat with explicit reductions mod 2^128
where the source wraps; fallible code (width-checked arithmetic that throws
on overflow) returns Option.  Helpers of the repository that the two
modules call but whose files are not part of the given sources
(MathUtil, getRewardInTickRange, computeSwap, TickMath, SwapUtils,
transClmmpoolDataWithoutTicks) are modelled from the specification and
carry a doc comment saying so.
-/

set_option maxRecDepth 8192

/-- One rewarder record of a pool (types: Rewarder). -/
structure Rewarder where
  emissions_per_second : Nat
  growth_global : Nat
  coinAddress : String
deriving DecidableEq

/-- Pool snapshot fields read by the embedded code (types: Pool).
Liquidity, sqrt price and fee rate are unsigned on chain; the current tick
index is signed. -/
structure Pool where
  liquidity : Nat
  current_sqrt_price : Nat
  current_tick_index : Int
  fee_rate : Nat
  rewarder_infos : List Rewarder
  rewarder_last_updated_time : Nat
deriving DecidableEq

/-- Tick data consumed by the simulator and the accrual code
(types/clmmpool TickData).  Modelled from the spec: the TickData type is
not under src; fields follow the Tick record of the data model, with the
sqrt price of the tick carried alongside its index (the spec derives it
from the index through TickMath, whose power table is not given; the
simulator only ever uses the value as a step target). -/
structure TickData where
  index : Int
  sqrtPrice : Nat
  liquidityNet : Int
  feeGrowthOutsideA : Nat
  feeGrowthOutsideB : Nat
  rewardersGrowthOutside : List Nat
deriving DecidableEq

/-- Position reward fields read by the accrual code (types: PositionReward). -/
structure PositionReward where
  liquidity : Nat
  tick_lower_index : Int
  tick_upper_index : Int
  reward_amount_owed_0 : Nat
  reward_amount_owed_1 : Nat
  reward_amount_owed_2 : Nat
  reward_growth_inside_0 : Nat
  reward_growth_inside_1 : Nat
  reward_growth_inside_2 : Nat
deriving DecidableEq

/-- One owed entry returned by the accrual code (types: RewarderAmountOwed). -/
structure RewarderAmountOwed where
  amount_owed : Nat
  coin_address : String
deriving DecidableEq

/-- Modelled from the spec: MathUtil.subUnderflowU128 (math/utils, not under
src) is the wrappingSub primitive: (a - b) mod 2^128, the unsigned
wraparound subtraction of the ledger virtual machine; never saturating. -/
def subUnderflowU128 (n0 n1 : Nat) : Nat :=
  (((n0 : Int) - (n1 : Int)).emod (2 ^ 128)).toNat

/-- Modelled from the spec: MathUtil.checkMulShiftRight (math/utils, not
under src): floor(a * b / 2^shift) with an overflow check, failing when the
result is not representable in the target width. -/
def checkMulShiftRight (n0 n1 shift limit : Nat) : Option Nat :=
  let n := n0 * n1 / 2 ^ shift
  if n < 2 ^ limit then some n else none

/-- Modelled from the spec: MathUtil.checkMulDivFloor (math/utils, not under
src): floor(a * b / denom) with an overflow check, failing when the
denominator is zero or the result is not representable in the target
width. -/
def checkMulDivFloor (n0 n1 denom : Int) (limit : Nat) : Option Int :=
  if denom = 0 then none
  else
    let n := Int.fdiv (n0 * n1) denom
    if 0 ≤ n ∧ n < 2 ^ limit then some n else none

/-- The mulShiftRight primitive of the spec: floor(a * b / 2^shift), the
Q64.64 multiplication (value observed on the success path of
checkMulShiftRight). -/
def mulShiftRight (n0 n1 shift : Nat) : Nat :=
  n0 * n1 / 2 ^ shift

/-- The near-maximum-u128 threshold of the defensive clamp, as written in
the accrual code of the rewarder module. -/
def GROWTH_DELTA_CLAMP_THRESHOLD : Nat := 3402823669209384634633745948738404

/-- The defensive clamp of the spec: a wrapped delta above the documented
threshold is treated as the minimal unit value 1, otherwise kept unchanged. -/
def clampGrowthDelta (d : Nat) : Nat :=
  if GROWTH_DELTA_CLAMP_THRESHOLD < d then 1 else d

/-- Modelled from the spec: getRewardInTickRange (utils/tick, not under
src) computes the growth-inside value per rewarder:
growthInside = growthGlobal - growthBelow(tickLower) - growthAbove(tickUpper),
each subtraction a wrappingSub, the below and above parts read from the
growth-outside snapshots of the boundary ticks relative to the current
tick of the pool. -/
def getRewardInTickRange (pool : Pool) (tickLower tickUpper : TickData)
    (tickLowerIndex tickUpperIndex : Int) (growthGlobal : List Nat) : List Nat :=
  (List.range pool.rewarder_infos.length).map fun i =>
    let g := growthGlobal.getD i 0
    let rewarder_growth_below :=
      if pool.current_tick_index < tickLowerIndex then
        subUnderflowU128 g (tickLower.rewardersGrowthOutside.getD i 0)
      else tickLower.rewardersGrowthOutside.getD i 0
    let rewarder_growth_above :=
      if pool.current_tick_index < tickUpperIndex then
        tickUpper.rewardersGrowthOutside.getD i 0
      else subUnderflowU128 g (tickUpper.rewardersGrowthOutside.getD i 0)
    subUnderflowU128 (subUnderflowU128 g rewarder_growth_below) rewarder_growth_above

/-- Default rewarder used for out-of-range list reads (the source would
fault there; no claim exercises that case). -/
def defaultRewarder : Rewarder := ⟨0, 0, ""⟩

/-- RewarderModule.posRewardersAmountInternal, translated from src.  The
method reads the growthGlobal array cached on the module instance; the
embedding passes that array explicitly.  The three sequential blocks of
the source (one per rewarder index present in the growth-inside data)
each wrap-subtract the stored snapshot, apply the defensive clamp, and
push previously-owed plus the checked mul-shift delta. -/
def posRewardersAmountInternal (growthGlobal : List Nat) (pool : Pool)
    (position : PositionReward) (tickLower tickUpper : TickData) :
    Option (List RewarderAmountOwed) :=
  let rewardersInside := getRewardInTickRange pool tickLower tickUpper
    position.tick_lower_index position.tick_upper_index growthGlobal
  if 0 < rewardersInside.length then
    let growthDelta_0 := subUnderflowU128 (rewardersInside.getD 0 0) position.reward_growth_inside_0
    let growthDelta_0 := if 3402823669209384634633745948738404 < growthDelta_0 then 1 else growthDelta_0
    match checkMulShiftRight position.liquidity growthDelta_0 64 128 with
    | none => none
    | some amountOwed_0 =>
      let entry_0 : RewarderAmountOwed :=
        { amount_owed := position.reward_amount_owed_0 + amountOwed_0
          coin_address := (pool.rewarder_infos.getD 0 defaultRewarder).coinAddress }
      if 1 < rewardersInside.length then
        let growthDelta_1 := subUnderflowU128 (rewardersInside.getD 1 0) position.reward_growth_inside_1
        let growthDelta_1 := if 3402823669209384634633745948738404 < growthDelta_1 then 1 else growthDelta_1
        match checkMulShiftRight position.liquidity growthDelta_1 64 128 with
        | none => none
        | some amountOwed_1 =>
          let entry_1 : RewarderAmountOwed :=
            { amount_owed := position.reward_amount_owed_1 + amountOwed_1
              coin_address := (pool.rewarder_infos.getD 1 defaultRewarder).coinAddress }
          if 2 < rewardersInside.length then
            let growthDelta_2 := subUnderflowU128 (rewardersInside.getD 2 0) position.reward_growth_inside_2
            let growthDelta_2 := if 3402823669209384634633745948738404 < growthDelta_2 then 1 else growthDelta_2
            match checkMulShiftRight position.liquidity growthDelta_2 64 128 with
            | none => none
            | some amountOwed_2 =>
              let entry_2 : RewarderAmountOwed :=
                { amount_owed := position.reward_amount_owed_2 + amountOwed_2
                  coin_address := (pool.rewarder_infos.getD 2 defaultRewarder).coinAddress }
              some [entry_0, entry_1, entry_2]
          else some [entry_0, entry_1]
      else some [entry_0]
  else some []

/-- Spec-side selector: the stored growth-inside snapshot of the position
for rewarder index i. -/
def rewardGrowthInsideOf (position : PositionReward) (i : Nat) : Nat :=
  [position.reward_growth_inside_0, position.reward_growth_inside_1,
    position.reward_growth_inside_2].getD i 0

/-- Spec-side selector: the previously recorded owed amount of the position
for rewarder index i. -/
def rewardAmountOwedOf (position : PositionReward) (i : Nat) : Nat :=
  [position.reward_amount_owed_0, position.reward_amount_owed_1,
    position.reward_amount_owed_2].getD i 0

/-- Spec-side formula of the accrual: the owed entry expected for rewarder
index i, built from the growth-inside data by the wrappingSub, defensive
clamp and mulShiftRight pipeline of the spec. -/
def expectedOwedEntry (pool : Pool) (position : PositionReward)
    (rewardersInside : List Nat) (i : Nat) : RewarderAmountOwed :=
  { amount_owed := rewardAmountOwedOf position i +
      mulShiftRight position.liquidity
        (clampGrowthDelta (subUnderflowU128 (rewardersInside.getD i 0)
          (rewardGrowthInsideOf position i))) 64
    coin_address := (pool.rewarder_infos.getD i defaultRewarder).coinAddress }

/-- RewarderModule.updatePoolRewarder, translated from src, with the
network fetch of the pool replaced by the pool argument and the mutable
growthGlobal array of the module passed and returned explicitly.  The
method stamps the new update time on the pool, returns early (growth
array untouched) when the pool has zero liquidity or the time is
unchanged, and otherwise recomputes every cached growth entry through the
width-checked mul-div whose denominator is the pool liquidity. -/
def updatePoolRewarder (growthGlobal : List Nat) (pool : Pool)
    (currentTime : Nat) : Option (Pool × List Nat) :=
  let lastTime := pool.rewarder_last_updated_time
  let pool' := { pool with rewarder_last_updated_time := currentTime }
  if pool.liquidity = 0 ∨ currentTime = lastTime then
    some (pool', growthGlobal)
  else
    let timeDelta : Int := (currentTime : Int) / 1000 - (lastTime : Int) + 15
    match pool.rewarder_infos.mapM (fun ri =>
      (checkMulDivFloor timeDelta (ri.emissions_per_second : Int)
        (pool.liquidity : Int) 128).map fun d => ri.growth_global + d.toNat) with
    | none => none
    | some updated =>
      some (pool', (List.range (max growthGlobal.length updated.length)).map fun i =>
        if i < updated.length then updated.getD i 0 else growthGlobal.getD i 0)

/-- Modelled from the spec: MIN_SQRT_PRICE (math/swap, not under src), the
lower bound of the valid sqrt-price range. -/
def MIN_SQRT_PRICE : Nat := 4295048016

/-- Modelled from the spec: MAX_SQRT_PRICE (math/swap, not under src), the
upper bound of the valid sqrt-price range. -/
def MAX_SQRT_PRICE : Nat := 79226673515401279992447579055

/-- Modelled from the spec: SwapUtils.getDefaultSqrtPriceLimit (math/swap,
not under src): MIN_SQRT_PRICE when trading token A into token B, else
MAX_SQRT_PRICE. -/
def getDefaultSqrtPriceLimit (a2b : Bool) : Nat :=
  if a2b then MIN_SQRT_PRICE else MAX_SQRT_PRICE

/-- Result of one swap step of the simulator. -/
structure SwapStepResult where
  amountIn : Nat
  amountOut : Nat
  feeAmount : Nat
  nextSqrtPrice : Nat
deriving DecidableEq

/-- Result of the swap state machine (types: SwapResult of the spec data
model, named as the fields the swap module reads from computeSwap). -/
structure SwapResult where
  amountIn : Nat
  amountOut : Nat
  feeAmount : Nat
  nextSqrtPrice : Nat
  crossTickNum : Nat
deriving DecidableEq

/-- Fee-rate denominator for the basis-point fee rates of the spec data
model. -/
def FEE_RATE_DENOMINATOR : Nat := 10000

/-- Ceiling division on Nat, the round-up direction of the rounding
policy. -/
def divRoundUp (a b : Nat) : Nat := (a + b - 1) / b

/-- Modelled from the spec: the token-A delta of the constant-liquidity
step formula, liquidity times the absolute change of the reciprocal sqrt
price, in Q64.64: L * |p0 - p1| * 2^64 / (p0 * p1), floor or ceiling per
call site. -/
def getDeltaA (liquidity p0 p1 : Nat) (roundUp : Bool) : Nat :=
  let diff := if p0 ≤ p1 then p1 - p0 else p0 - p1
  let num := liquidity * diff * 2 ^ 64
  if roundUp then divRoundUp num (p0 * p1) else num / (p0 * p1)

/-- Modelled from the spec: the token-B delta of the constant-liquidity
step formula, liquidity times the absolute sqrt-price change, in Q64.64:
L * |p0 - p1| / 2^64, floor or ceiling per call site. -/
def getDeltaB (liquidity p0 p1 : Nat) (roundUp : Bool) : Nat :=
  let diff := if p0 ≤ p1 then p1 - p0 else p0 - p1
  let num := liquidity * diff
  if roundUp then divRoundUp num (2 ^ 64) else num / 2 ^ 64

/-- Modelled from the spec: the exact landing sqrt price inside a step
interval for a given net input, solving the step formula for the price;
rounded so the price never moves further than the input justifies. -/
def nextSqrtPriceFromInput (a2b : Bool) (p liquidity x : Nat) : Nat :=
  if a2b then divRoundUp (liquidity * p * 2 ^ 64) (liquidity * 2 ^ 64 + x * p)
  else p + x * 2 ^ 64 / liquidity

/-- Modelled from the spec: the exact landing sqrt price inside a step
interval for a given produced output, solving the step formula for the
price; rounded so the price moves at least enough to produce the output. -/
def nextSqrtPriceFromOutput (a2b : Bool) (p liquidity y : Nat) : Nat :=
  if a2b then p - divRoundUp (y * 2 ^ 64) liquidity
  else divRoundUp (liquidity * p * 2 ^ 64) (liquidity * 2 ^ 64 - y * p)

/-- Modelled from the spec: one swap step of the simulator over the
interval from the current sqrt price to the target at constant liquidity:
per the rounding policy, input required for the interval rounds up and
output produced rounds down; the fee is computed on the input of the step
(fee-on-input) before the remaining amount is reduced; when the step
capacity fully covers the remaining amount the exact landing price inside
the interval is solved instead (a partial step). -/
def computeSwapStep (a2b byAmountIn : Bool) (feeRate p0 target liquidity remaining : Nat) :
    SwapStepResult :=
  if liquidity = 0 then ⟨0, 0, 0, target⟩
  else if byAmountIn then
    let maxIn := if a2b then getDeltaA liquidity target p0 true else getDeltaB liquidity p0 target true
    let feeMax := divRoundUp (maxIn * feeRate) (FEE_RATE_DENOMINATOR - feeRate)
    if remaining < maxIn + feeMax then
      let fee := remaining * feeRate / FEE_RATE_DENOMINATOR
      let netIn := remaining - fee
      let next := nextSqrtPriceFromInput a2b p0 liquidity netIn
      let out := if a2b then getDeltaB liquidity next p0 false else getDeltaA liquidity p0 next false
      ⟨netIn, out, fee, next⟩
    else
      let out := if a2b then getDeltaB liquidity target p0 false else getDeltaA liquidity p0 target false
      ⟨maxIn, out, feeMax, target⟩
  else
    let maxOut := if a2b then getDeltaB liquidity target p0 false else getDeltaA liquidity p0 target false
    if remaining < maxOut then
      let next := nextSqrtPriceFromOutput a2b p0 liquidity remaining
      let inAmt := if a2b then getDeltaA liquidity next p0 true else getDeltaB liquidity p0 next true
      let fee := divRoundUp (inAmt * feeRate) (FEE_RATE_DENOMINATOR - feeRate)
      ⟨inAmt, remaining, fee, next⟩
    else
      let inAmt := if a2b then getDeltaA liquidity target p0 true else getDeltaB liquidity p0 target true
      let fee := divRoundUp (inAmt * feeRate) (FEE_RATE_DENOMINATOR - feeRate)
      ⟨inAmt, maxOut, fee, target⟩

/-- Modelled from the spec: the loop of the swap state machine, walking the
supplied tick sequence.  It stops when the remaining amount is zero or the
price limit is reached; ticks not ahead in the traversal direction are
skipped; a step that lands exactly on its tick with amount left crosses
the tick (the signed liquidityNet added when the price increases through
the tick, subtracted when it decreases) and counts the crossing; any other
landing ends the swap.  The supplied finite sequence bounds the number of
iterations. -/
def computeSwapLoop (a2b byAmountIn : Bool) (feeRate limit : Nat) :
    List TickData → Nat → Nat → Nat → Nat → Nat → Nat → Nat → SwapResult
  | [], _, curP, _, accIn, accOut, accFee, accCross =>
    ⟨accIn, accOut, accFee, curP, accCross⟩
  | tick :: rest, remaining, curP, curL, accIn, accOut, accFee, accCross =>
    if remaining = 0 ∨ curP = limit then ⟨accIn, accOut, accFee, curP, accCross⟩
    else if (a2b ∧ curP < tick.sqrtPrice) ∨ (¬a2b ∧ tick.sqrtPrice < curP) then
      computeSwapLoop a2b byAmountIn feeRate limit rest remaining curP curL accIn accOut accFee accCross
    else
      let target := if a2b then max tick.sqrtPrice limit else min tick.sqrtPrice limit
      let step := computeSwapStep a2b byAmountIn feeRate curP target curL remaining
      let accIn' := accIn + step.amountIn
      let accOut' := accOut + step.amountOut
      let accFee' := accFee + step.feeAmount
      let remaining' := if byAmountIn then remaining - (step.amountIn + step.feeAmount)
        else remaining - step.amountOut
      if step.nextSqrtPrice = tick.sqrtPrice ∧ remaining' ≠ 0 then
        let curL' := if a2b then ((curL : Int) - tick.liquidityNet).toNat
          else ((curL : Int) + tick.liquidityNet).toNat
        computeSwapLoop a2b byAmountIn feeRate limit rest remaining' step.nextSqrtPrice curL' accIn' accOut' accFee' (accCross + 1)
      else ⟨accIn', accOut', accFee', step.nextSqrtPrice, accCross⟩

/-- Pool data consumed by the simulator (types/clmmpool ClmmpoolData). -/
structure ClmmpoolData where
  liquidity : Nat
  currentSqrtPrice : Nat
  currentTickIndex : Int
  feeRate : Nat
deriving DecidableEq

/-- Modelled from the spec: transClmmpoolDataWithoutTicks (types/clmmpool,
not under src) projects the pool snapshot fields the simulator uses. -/
def transClmmpoolDataWithoutTicks (pool : Pool) : ClmmpoolData :=
  ⟨pool.liquidity, pool.current_sqrt_price, pool.current_tick_index, pool.fee_rate⟩

/-- Modelled from the spec: computeSwap (math/clmm, not under src), the
SwapSimulator state machine: state initialized from the amount and the
pool snapshot, then the tick-walking loop with the global price limit of
the direction. -/
def computeSwap (a2b byAmountIn : Bool) (amount : Nat) (poolData : ClmmpoolData)
    (swapTicks : List TickData) : SwapResult :=
  computeSwapLoop a2b byAmountIn poolData.feeRate (getDefaultSqrtPriceLimit a2b)
    swapTicks amount poolData.currentSqrtPrice poolData.liquidity 0 0 0 0

/-- Parameters of SwapModule.calculateRates (types: CalculateRatesParams). -/
structure CalculateRatesParams where
  decimalsA : Nat
  decimalsB : Nat
  a2b : Bool
  byAmountIn : Bool
  amount : Nat
  swapTicks : List TickData
  currentPool : Pool
deriving DecidableEq

/-- Result of SwapModule.calculateRates (types: CalculateRatesResult).  The
price impact is modelled as an exact rational; the source narrows it to a
JS floating-point number, which no claim concerns. -/
structure CalculateRatesResult where
  estimatedAmountIn : Nat
  estimatedAmountOut : Nat
  estimatedEndSqrtPrice : Nat
  estimatedFeeAmount : Nat
  isExceed : Bool
  extraComputeLimit : Nat
  amount : Nat
  aToB : Bool
  byAmountIn : Bool
  priceImpactPct : Rat

/-- Modelled from the spec: TickMath.sqrtPriceX64ToPrice (math/tick, not
under src): the decimal price (p / 2^64)^2 adjusted by the token decimal
difference, here as an exact rational. -/
def sqrtPriceX64ToPrice (sqrtPrice : Nat) (decimalsA decimalsB : Nat) : Rat :=
  ((sqrtPrice : Rat) / 2 ^ 64) ^ 2 * 10 ^ decimalsA / 10 ^ decimalsB

/-- The tick ordering calculateRates establishes itself before simulating,
translated from src: the supplied array is sorted in place by index with a
stable comparison (Array.prototype.sort), descending for an A-to-B swap
and ascending otherwise.  A stable sort is extensionally unique, so the
structural insertion sort stands for the sort of the runtime. -/
def calculateRatesTicks (a2b : Bool) (swapTicks : List TickData) : List TickData :=
  if a2b then List.insertionSort (fun a b => b.index ≤ a.index) swapTicks
  else List.insertionSort (fun a b => a.index ≤ b.index) swapTicks

/-- The swap simulation performed inside calculateRates, translated from
src: computeSwap applied to the projected pool data and the tick sequence
the method sorted. -/
def calculateRatesSwapResult (params : CalculateRatesParams) : SwapResult :=
  computeSwap params.a2b params.byAmountIn params.amount
    (transClmmpoolDataWithoutTicks params.currentPool)
    (calculateRatesTicks params.a2b params.swapTicks)

/-- SwapModule.calculateRates, translated from src: sorts the ticks, runs
computeSwap, derives isExceed from the unfilled amount, the price limit of
the direction and the cross-tick threshold, and packages the result. -/
def calculateRates (params : CalculateRatesParams) : CalculateRatesResult :=
  let poolData := transClmmpoolDataWithoutTicks params.currentPool
  let swapResult := calculateRatesSwapResult params
  let isExceed : Bool :=
    if params.byAmountIn then decide (swapResult.amountIn < params.amount)
    else decide (swapResult.amountOut < params.amount)
  let sqrtPriceLimit := getDefaultSqrtPriceLimit params.a2b
  let isExceed : Bool :=
    if params.a2b ∧ swapResult.nextSqrtPrice < sqrtPriceLimit then true else isExceed
  let isExceed : Bool :=
    if ¬params.a2b ∧ sqrtPriceLimit < swapResult.nextSqrtPrice then true else isExceed
  let extraComputeLimit :=
    if 6 < swapResult.crossTickNum ∧ swapResult.crossTickNum < 40 then
      22000 * (swapResult.crossTickNum - 6)
    else 0
  let isExceed : Bool := if 40 < swapResult.crossTickNum then true else isExceed
  let prePrice := sqrtPriceX64ToPrice poolData.currentSqrtPrice params.decimalsA params.decimalsB
  let afterPrice := sqrtPriceX64ToPrice swapResult.nextSqrtPrice params.decimalsA params.decimalsB
  let priceImpactPct := |prePrice - afterPrice| / prePrice * 100
  { estimatedAmountIn := swapResult.amountIn
    estimatedAmountOut := swapResult.amountOut
    estimatedEndSqrtPrice := swapResult.nextSqrtPrice
    estimatedFeeAmount := swapResult.feeAmount
    isExceed := isExceed
    extraComputeLimit := extraComputeLimit
    amount := params.amount
    aToB := params.a2b
    byAmountIn := params.byAmountIn
    priceImpactPct := priceImpactPct }

/-- Post-call contents of the array the caller passed as swapTicks,
translated from src: Array.prototype.sort mutates the array in place, so
after calculateRates returns the caller holds the sorted sequence. -/
def calculateRatesTicksAfter (params : CalculateRatesParams) : List TickData :=
  calculateRatesTicks params.a2b params.swapTicks

/-- The growth-inside list the accrual derives for a call, as one value
(abbreviation of the getRewardInTickRange call the method makes). -/
def rewardersInsideOf (growthGlobal : List Nat) (pool : Pool)
    (position : PositionReward) (tickLower tickUpper : TickData) : List Nat :=
  getRewardInTickRange pool tickLower tickUpper position.tick_lower_index
    position.tick_upper_index growthGlobal

/-- The Q64.64 scale. -/
def Q64 : Nat := 2 ^ 64

/-- Concrete lower boundary tick for accrual examples: growth-outside 0. -/
def exampleRewardTickLower : TickData := ⟨-1, 0, 0, 0, 0, [0]⟩

/-- Concrete upper boundary tick for accrual examples: growth-outside 0. -/
def exampleRewardTickUpper : TickData := ⟨1, 0, 0, 0, 0, [0]⟩

/-- Concrete pool with one rewarder for accrual examples. -/
def exampleRewardPool : Pool := ⟨100, Q64, 0, 0, [⟨1, 0, "R0"⟩], 0⟩

/-- Concrete position (liquidity 2, everything else zero) for accrual
examples; its range contains the current tick of the example pool. -/
def exampleRewardPosition : PositionReward := ⟨2, -1, 1, 0, 0, 0, 0, 0, 0⟩

/-- Concrete pool snapshot for swap examples: liquidity and sqrt price both
2^64 (price one), zero fee. -/
def exampleSwapPool : Pool := ⟨Q64, Q64, 0, 0, [], 0⟩

/-- A tick i steps above the example price, with zero net liquidity. -/
def exampleTickAbove (i : Nat) : TickData := ⟨(i : Int), Q64 + i, 0, 0, 0, []⟩

/-- Forty-one initialized ticks just above the example price. -/
def exampleManyTicks : List TickData := (List.range 41).map fun k => exampleTickAbove (k + 1)

/-- A B-to-A exact-input call that crosses all forty-one ticks. -/
def exampleManyTickParams : CalculateRatesParams :=
  ⟨0, 0, false, true, 100, exampleManyTicks, exampleSwapPool⟩

/-- An exact-input call with no initialized ticks, so nothing fills. -/
def exampleEmptyTickParams : CalculateRatesParams :=
  ⟨0, 0, false, true, 5, [], exampleSwapPool⟩

/-- An exact-input call with amount zero. -/
def exampleZeroAmountParams : CalculateRatesParams :=
  ⟨0, 0, false, true, 0, [exampleTickAbove 1], exampleSwapPool⟩

/-- A tick below the example price, with zero net liquidity. -/
def exampleTickBelow (i : Nat) : TickData :=
  ⟨-(i : Int), Q64 - i * 1000000000, 0, 0, 0, []⟩

/-- Two ticks below the current price listed ascending by index, which is
the wrong order for an A-to-B traversal. -/
def exampleMisorderedTicks : List TickData := [exampleTickBelow 5, exampleTickBelow 1]

/-- An A-to-B exact-input call handed the misordered tick sequence. -/
def exampleMisorderedParams : CalculateRatesParams :=
  ⟨0, 0, true, true, 1000000000, exampleMisorderedTicks, exampleSwapPool⟩

/-- The same call handed the ticks already in descending traversal order. -/
def exampleSortedParams : CalculateRatesParams :=
  ⟨0, 0, true, true, 1000000000, [exampleTickBelow 1, exampleTickBelow 5], exampleSwapPool⟩

/-- Concrete position whose stored growth snapshot (5) exceeds the new
growth inside (0), so the wrapped delta is near the u128 maximum and the
defensive clamp fires. -/
def exampleClampPosition : PositionReward := ⟨2, -1, 1, 7, 0, 0, 5, 0, 0⟩

/-- Concrete pool with zero liquidity for the rewarder-update guard. -/
def exampleZeroLiquidityPool : Pool := ⟨0, Q64, 0, 0, [⟨1, 0, "R0"⟩], 0⟩

theorem length_rewardersInsideOf (growthGlobal : List Nat) (pool : Pool)
    (position : PositionReward) (tickLower tickUpper : TickData) :
    (rewardersInsideOf growthGlobal pool position tickLower tickUpper).length =
      pool.rewarder_infos.length := by
  simp [rewardersInsideOf, getRewardInTickRange]

theorem posRewardersAmountInternal_core (growthGlobal : List Nat) (pool : Pool)
    (position : PositionReward) (tickLower tickUpper : TickData)
    (r : List RewarderAmountOwed)
    (heq : posRewardersAmountInternal growthGlobal pool position tickLower tickUpper = some r) :
    r.length = min (rewardersInsideOf growthGlobal pool position tickLower tickUpper).length 3 ∧
    ∀ i, i < r.length →
      r.get? i = some (expectedOwedEntry pool position
        (rewardersInsideOf growthGlobal pool position tickLower tickUpper) i) := by
  simp only [posRewardersAmountInternal] at heq
  rw [show getRewardInTickRange pool tickLower tickUpper position.tick_lower_index
      position.tick_upper_index growthGlobal =
      rewardersInsideOf growthGlobal pool position tickLower tickUpper from rfl] at heq
  set l := rewardersInsideOf growthGlobal pool position tickLower tickUpper with hl
  clear_value l
  have hmsr : ∀ (m a : Nat), checkMulShiftRight position.liquidity m 64 128 = some a →
      a = position.liquidity * m / 2 ^ 64 := by
    intro m a hc
    simp only [checkMulShiftRight] at hc
    split at hc
    · exact (Option.some.inj hc).symm
    · exact absurd hc (by simp)
  split at heq
  · rename_i h0
    split at heq
    · exact absurd heq (by simp)
    · rename_i a0 hc0
      have ha0 := hmsr _ _ hc0
      split at heq
      · rename_i h1
        split at heq
        · exact absurd heq (by simp)
        · rename_i a1 hc1
          have ha1 := hmsr _ _ hc1
          split at heq
          · rename_i h2
            split at heq
            · exact absurd heq (by simp)
            · rename_i a2 hc2
              have ha2 := hmsr _ _ hc2
              have hr : r = [⟨position.reward_amount_owed_0 + a0,
                  (pool.rewarder_infos.getD 0 defaultRewarder).coinAddress⟩,
                  ⟨position.reward_amount_owed_1 + a1,
                  (pool.rewarder_infos.getD 1 defaultRewarder).coinAddress⟩,
                  ⟨position.reward_amount_owed_2 + a2,
                  (pool.rewarder_infos.getD 2 defaultRewarder).coinAddress⟩] :=
                (Option.some.inj heq).symm
              subst hr
              refine ⟨by simp; omega, ?_⟩
              intro i hi
              have hi3 : i = 0 ∨ i = 1 ∨ i = 2 := by simp at hi; omega
              rcases hi3 with h | h | h <;> subst h <;>
                simp [expectedOwedEntry, rewardAmountOwedOf, rewardGrowthInsideOf,
                  mulShiftRight, clampGrowthDelta, GROWTH_DELTA_CLAMP_THRESHOLD, ha0, ha1, ha2]
          · rename_i h2
            have hr : r = [⟨position.reward_amount_owed_0 + a0,
                (pool.rewarder_infos.getD 0 defaultRewarder).coinAddress⟩,
                ⟨position.reward_amount_owed_1 + a1,
                (pool.rewarder_infos.getD 1 defaultRewarder).coinAddress⟩] :=
              (Option.some.inj heq).symm
            subst hr
            refine ⟨by simp; omega, ?_⟩
            intro i hi
            have hi2 : i = 0 ∨ i = 1 := by simp at hi; omega
            rcases hi2 with h | h <;> subst h <;>
              simp [expectedOwedEntry, rewardAmountOwedOf, rewardGrowthInsideOf,
                mulShiftRight, clampGrowthDelta, GROWTH_DELTA_CLAMP_THRESHOLD, ha0, ha1]
      · rename_i h1
        have hr : r = [⟨position.reward_amount_owed_0 + a0,
            (pool.rewarder_infos.getD 0 defaultRewarder).coinAddress⟩] :=
          (Option.some.inj heq).symm
        subst hr
        refine ⟨by simp; omega, ?_⟩
        intro i hi
        have hi1 : i = 0 := by simp at hi; omega
        subst hi1
        simp [expectedOwedEntry, rewardAmountOwedOf, rewardGrowthInsideOf,
          mulShiftRight, clampGrowthDelta, GROWTH_DELTA_CLAMP_THRESHOLD, ha0]
  · rename_i h0
    have hr : r = [] := (Option.some.inj heq).symm
    subst hr
    exact ⟨by simp; omega, by intro i hi; simp at hi⟩

/-- C1: for every accrual call of posRewardersAmountInternal (the pool
carrying at most the three rewarders of the data model) and every rewarder
index present in the growth-inside data, the returned owed amount equals
the previously recorded reward_amount_owed of the position for that index
plus mulShiftRight(positionLiquidity, wrappingSub(newGrowthInside,
storedGrowthInside), 64), the wrapped delta first subjected to the
defensive clamp. -/
theorem posRewardersAmountInternal_owed_delta (growthGlobal : List Nat)
    (pool : Pool) (position : PositionReward) (tickLower tickUpper : TickData)
    (r : List RewarderAmountOwed)
    (hinfos : pool.rewarder_infos.length ≤ 3)
    (heq : posRewardersAmountInternal growthGlobal pool position tickLower tickUpper = some r)
    (i : Nat)
    (hi : i < (rewardersInsideOf growthGlobal pool position tickLower tickUpper).length) :
    r.get? i = some
      { amount_owed := rewardAmountOwedOf position i +
          mulShiftRight position.liquidity
            (clampGrowthDelta (subUnderflowU128
              ((rewardersInsideOf growthGlobal pool position tickLower tickUpper).getD i 0)
              (rewardGrowthInsideOf position i))) 64
        coin_address := (pool.rewarder_infos.getD i defaultRewarder).coinAddress } := by
  obtain ⟨hlen, hget⟩ :=
    posRewardersAmountInternal_core growthGlobal pool position tickLower tickUpper r heq
  have hlr := length_rewardersInsideOf growthGlobal pool position tickLower tickUpper
  have hir : i < r.length := by omega
  have h := hget i hir
  simpa [expectedOwedEntry] using h

theorem posRewardersAmountInternal_owed_delta_witness :
    exampleRewardPool.rewarder_infos.length ≤ 3 ∧
    posRewardersAmountInternal [Q64] exampleRewardPool exampleRewardPosition
      exampleRewardTickLower exampleRewardTickUpper = some [⟨2, "R0"⟩] ∧
    0 < (rewardersInsideOf [Q64] exampleRewardPool exampleRewardPosition
      exampleRewardTickLower exampleRewardTickUpper).length ∧
    ([⟨2, "R0"⟩] : List RewarderAmountOwed).get? 0 = some
      { amount_owed := rewardAmountOwedOf exampleRewardPosition 0 +
          mulShiftRight exampleRewardPosition.liquidity
            (clampGrowthDelta (subUnderflowU128
              ((rewardersInsideOf [Q64] exampleRewardPool exampleRewardPosition
                exampleRewardTickLower exampleRewardTickUpper).getD 0 0)
              (rewardGrowthInsideOf exampleRewardPosition 0))) 64
        coin_address := (exampleRewardPool.rewarder_infos.getD 0 defaultRewarder).coinAddress } :=
  ⟨by decide, by decide, by decide,
    posRewardersAmountInternal_owed_delta [Q64] exampleRewardPool exampleRewardPosition
      exampleRewardTickLower exampleRewardTickUpper [⟨2, "R0"⟩] (by decide) (by decide) 0 (by decide)⟩

/-- C2: in the accrual computation, a wrapped growth delta above the
documented near-maximum-u128 threshold is replaced by the minimal unit
value 1, and a delta at or below the threshold is used unchanged — never
clamped to zero and never saturated. -/
theorem posRewardersAmountInternal_clamp_behavior (growthGlobal : List Nat)
    (pool : Pool) (position : PositionReward) (tickLower tickUpper : TickData)
    (r : List RewarderAmountOwed)
    (heq : posRewardersAmountInternal growthGlobal pool position tickLower tickUpper = some r)
    (i : Nat) (hi : i < r.length) :
    (GROWTH_DELTA_CLAMP_THRESHOLD <
        subUnderflowU128
          ((rewardersInsideOf growthGlobal pool position tickLower tickUpper).getD i 0)
          (rewardGrowthInsideOf position i) →
      r.get? i = some
        { amount_owed := rewardAmountOwedOf position i +
            mulShiftRight position.liquidity 1 64
          coin_address := (pool.rewarder_infos.getD i defaultRewarder).coinAddress }) ∧
    (subUnderflowU128
        ((rewardersInsideOf growthGlobal pool position tickLower tickUpper).getD i 0)
        (rewardGrowthInsideOf position i) ≤ GROWTH_DELTA_CLAMP_THRESHOLD →
      r.get? i = some
        { amount_owed := rewardAmountOwedOf position i +
            mulShiftRight position.liquidity
              (subUnderflowU128
                ((rewardersInsideOf growthGlobal pool position tickLower tickUpper).getD i 0)
                (rewardGrowthInsideOf position i)) 64
          coin_address := (pool.rewarder_infos.getD i defaultRewarder).coinAddress }) := by
  obtain ⟨-, hget⟩ :=
    posRewardersAmountInternal_core growthGlobal pool position tickLower tickUpper r heq
  have h := hget i hi
  have hclamp1 : ∀ d : Nat, GROWTH_DELTA_CLAMP_THRESHOLD < d → clampGrowthDelta d = 1 :=
    fun d hd => by unfold clampGrowthDelta; rw [if_pos hd]
  have hclamp2 : ∀ d : Nat, d ≤ GROWTH_DELTA_CLAMP_THRESHOLD → clampGrowthDelta d = d :=
    fun d hd => by unfold clampGrowthDelta; rw [if_neg (not_lt.mpr hd)]
  constructor
  · intro hgt
    rw [h]
    simp only [expectedOwedEntry, hclamp1 _ hgt]
  · intro hle
    rw [h]
    simp only [expectedOwedEntry, hclamp2 _ hle]

theorem posRewardersAmountInternal_clamp_behavior_witness :
    posRewardersAmountInternal [0] exampleRewardPool exampleClampPosition
      exampleRewardTickLower exampleRewardTickUpper = some [⟨7, "R0"⟩] ∧
    GROWTH_DELTA_CLAMP_THRESHOLD <
      subUnderflowU128
        ((rewardersInsideOf [0] exampleRewardPool exampleClampPosition
          exampleRewardTickLower exampleRewardTickUpper).getD 0 0)
        (rewardGrowthInsideOf exampleClampPosition 0) ∧
    ([⟨7, "R0"⟩] : List RewarderAmountOwed).get? 0 = some
      { amount_owed := rewardAmountOwedOf exampleClampPosition 0 +
          mulShiftRight exampleClampPosition.liquidity 1 64
        coin_address := (exampleRewardPool.rewarder_infos.getD 0 defaultRewarder).coinAddress } :=
  ⟨by decide, by decide,
    (posRewardersAmountInternal_clamp_behavior [0] exampleRewardPool exampleClampPosition
      exampleRewardTickLower exampleRewardTickUpper [⟨7, "R0"⟩] (by decide) 0 (by decide)).1
      (by decide)⟩

/-- C9: an accrual call returns at most three owed entries, and — with the
at-most-three rewarders of the data model — exactly one entry, in rewarder
order, for each rewarder index for which a growth-inside value is
available. -/
theorem posRewardersAmountInternal_entry_count (growthGlobal : List Nat)
    (pool : Pool) (position : PositionReward) (tickLower tickUpper : TickData)
    (r : List RewarderAmountOwed)
    (heq : posRewardersAmountInternal growthGlobal pool position tickLower tickUpper = some r) :
    r.length ≤ 3 ∧
    (pool.rewarder_infos.length ≤ 3 →
      r.length = (rewardersInsideOf growthGlobal pool position tickLower tickUpper).length ∧
      ∀ i, i < r.length →
        (r.get? i).map RewarderAmountOwed.coin_address =
          some (pool.rewarder_infos.getD i defaultRewarder).coinAddress) := by
  obtain ⟨hlen, hget⟩ :=
    posRewardersAmountInternal_core growthGlobal pool position tickLower tickUpper r heq
  have hlr := length_rewardersInsideOf growthGlobal pool position tickLower tickUpper
  refine ⟨by omega, fun hinfos => ⟨by omega, fun i hi => ?_⟩⟩
  rw [hget i hi]
  simp [expectedOwedEntry]

theorem posRewardersAmountInternal_entry_count_witness :
    posRewardersAmountInternal [Q64] exampleRewardPool exampleRewardPosition
      exampleRewardTickLower exampleRewardTickUpper = some [⟨2, "R0"⟩] ∧
    exampleRewardPool.rewarder_infos.length ≤ 3 ∧
    ([⟨2, "R0"⟩] : List RewarderAmountOwed).length ≤ 3 ∧
    ([⟨2, "R0"⟩] : List RewarderAmountOwed).length =
      (rewardersInsideOf [Q64] exampleRewardPool exampleRewardPosition
        exampleRewardTickLower exampleRewardTickUpper).length :=
  ⟨by decide, by decide,
    (posRewardersAmountInternal_entry_count [Q64] exampleRewardPool exampleRewardPosition
      exampleRewardTickLower exampleRewardTickUpper [⟨2, "R0"⟩] (by decide)).1,
    ((posRewardersAmountInternal_entry_count [Q64] exampleRewardPool exampleRewardPosition
      exampleRewardTickLower exampleRewardTickUpper [⟨2, "R0"⟩] (by decide)).2 (by decide)).1⟩

/-- C3, counterexample: two accrual calls with identical pool, position
and tick arguments return different owed amounts when the cached
growthGlobal array of the module differs between the calls, so the
computation is not a pure function of its explicit arguments. -/
theorem posRewardersAmountInternal_reads_cached_growth :
    posRewardersAmountInternal [0] exampleRewardPool exampleRewardPosition
      exampleRewardTickLower exampleRewardTickUpper ≠
    posRewardersAmountInternal [Q64] exampleRewardPool exampleRewardPosition
      exampleRewardTickLower exampleRewardTickUpper := by decide

/-- C3, amended: the accrual reads the cached growthGlobal array of the
module (shared state updated by updatePoolRewarder) but only its entries
for the rewarders of the pool, and writes nothing: two calls with
identical explicit arguments and identical cached growth entries return
identical owed amounts. -/
theorem posRewardersAmountInternal_growth_frame (growthGlobal growthGlobal2 : List Nat)
    (pool : Pool) (position : PositionReward) (tickLower tickUpper : TickData)
    (hread : ∀ i, i < pool.rewarder_infos.length →
      growthGlobal.getD i 0 = growthGlobal2.getD i 0) :
    posRewardersAmountInternal growthGlobal pool position tickLower tickUpper =
      posRewardersAmountInternal growthGlobal2 pool position tickLower tickUpper := by
  have hg : getRewardInTickRange pool tickLower tickUpper position.tick_lower_index
      position.tick_upper_index growthGlobal =
      getRewardInTickRange pool tickLower tickUpper position.tick_lower_index
      position.tick_upper_index growthGlobal2 := by
    unfold getRewardInTickRange
    apply List.map_congr_left
    intro i hi
    rw [List.mem_range] at hi
    rw [hread i hi]
  unfold posRewardersAmountInternal
  rw [hg]

theorem posRewardersAmountInternal_growth_frame_witness :
    (∀ i, i < exampleRewardPool.rewarder_infos.length →
      ([Q64] : List Nat).getD i 0 = ([Q64, 999] : List Nat).getD i 0) ∧
    posRewardersAmountInternal [Q64] exampleRewardPool exampleRewardPosition
      exampleRewardTickLower exampleRewardTickUpper =
    posRewardersAmountInternal [Q64, 999] exampleRewardPool exampleRewardPosition
      exampleRewardTickLower exampleRewardTickUpper :=
  ⟨by decide,
    posRewardersAmountInternal_growth_frame [Q64] [Q64, 999] exampleRewardPool
      exampleRewardPosition exampleRewardTickLower exampleRewardTickUpper (by decide)⟩

/-- C10: updatePoolRewarder returns the pool (only its update time
restamped) with the cached growth array unmodified whenever the pool has
zero liquidity or the supplied time equals the last update time; the
growth-delta division by the pool liquidity lives only in the remaining
branch, where the liquidity is nonzero, so it is never a division by
zero. -/
theorem updatePoolRewarder_guard (growthGlobal : List Nat) (pool : Pool)
    (currentTime : Nat)
    (h : pool.liquidity = 0 ∨ currentTime = pool.rewarder_last_updated_time) :
    updatePoolRewarder growthGlobal pool currentTime =
      some ({ pool with rewarder_last_updated_time := currentTime }, growthGlobal) := by
  unfold updatePoolRewarder
  rw [if_pos h]

theorem updatePoolRewarder_guard_witness :
    (exampleZeroLiquidityPool.liquidity = 0 ∨
      (5000 : Nat) = exampleZeroLiquidityPool.rewarder_last_updated_time) ∧
    updatePoolRewarder [0, 0, 0] exampleZeroLiquidityPool 5000 =
      some ({ exampleZeroLiquidityPool with rewarder_last_updated_time := 5000 }, [0, 0, 0]) :=
  ⟨by decide, updatePoolRewarder_guard [0, 0, 0] exampleZeroLiquidityPool 5000 (by decide)⟩

theorem computeSwapLoop_zero (a2b byAmountIn : Bool) (feeRate limit : Nat)
    (ticks : List TickData) (curP curL accIn accOut accFee accCross : Nat) :
    computeSwapLoop a2b byAmountIn feeRate limit ticks 0 curP curL accIn accOut accFee accCross =
      ⟨accIn, accOut, accFee, curP, accCross⟩ := by
  cases ticks with
  | nil => rfl
  | cons t rest => simp [computeSwapLoop]

/-- C5: when the simulated swap crosses more tick boundaries than the
fixed cap bounding worst-case compute, calculateRates reports it through
the isExceed field of its normally returned result, not through an
error. -/
theorem calculateRates_cross_tick_cap (params : CalculateRatesParams)
    (h : 40 < (calculateRatesSwapResult params).crossTickNum) :
    (calculateRates params).isExceed = true := by
  simp only [calculateRates]
  rw [if_pos h]

theorem calculateRates_cross_tick_cap_witness :
    40 < (calculateRatesSwapResult exampleManyTickParams).crossTickNum ∧
    (calculateRates exampleManyTickParams).isExceed = true :=
  ⟨by decide, calculateRates_cross_tick_cap exampleManyTickParams (by decide)⟩

/-- C6: an exact-input simulation whose computed total amount in is
strictly below the requested amount returns isExceed = true. -/
theorem calculateRates_unfilled_exact_input (params : CalculateRatesParams)
    (hby : params.byAmountIn = true)
    (hlt : (calculateRates params).estimatedAmountIn < params.amount) :
    (calculateRates params).isExceed = true := by
  have hlt2 : (calculateRatesSwapResult params).amountIn < params.amount := by
    simpa [calculateRates] using hlt
  simp only [calculateRates]
  split
  · rfl
  · split
    · rfl
    · split
      · rfl
      · simp [hby, hlt2]

theorem calculateRates_unfilled_exact_input_witness :
    exampleEmptyTickParams.byAmountIn = true ∧
    (calculateRates exampleEmptyTickParams).estimatedAmountIn < exampleEmptyTickParams.amount ∧
    (calculateRates exampleEmptyTickParams).isExceed = true :=
  ⟨rfl, by decide,
    calculateRates_unfilled_exact_input exampleEmptyTickParams rfl (by decide)⟩

/-- C7, counterexample: a call with amount zero is not rejected; the
simulator runs and returns a normal result (zero fills, isExceed false),
so no InvalidAmount rejection exists in the code. -/
theorem calculateRates_zero_amount_not_rejected :
    (calculateRates exampleZeroAmountParams).estimatedAmountIn = 0 ∧
    (calculateRates exampleZeroAmountParams).estimatedAmountOut = 0 ∧
    (calculateRates exampleZeroAmountParams).estimatedFeeAmount = 0 ∧
    (calculateRates exampleZeroAmountParams).isExceed = false ∧
    (calculateRates exampleZeroAmountParams).amount = 0 := by decide

/-- C7, amended: calculateRates performs no validation of the amount; a
call with amount zero is processed normally and yields an empty fill: zero
amounts, zero fee, and an end price equal to the supplied pool price. -/
theorem calculateRates_zero_amount_noop (params : CalculateRatesParams)
    (h : params.amount = 0) :
    (calculateRates params).estimatedAmountIn = 0 ∧
    (calculateRates params).estimatedAmountOut = 0 ∧
    (calculateRates params).estimatedFeeAmount = 0 ∧
    (calculateRates params).estimatedEndSqrtPrice = params.currentPool.current_sqrt_price := by
  have hswap : calculateRatesSwapResult params =
      ⟨0, 0, 0, params.currentPool.current_sqrt_price, 0⟩ := by
    unfold calculateRatesSwapResult computeSwap
    rw [h, computeSwapLoop_zero]
    rfl
  refine ⟨?_, ?_, ?_, ?_⟩ <;> simp [calculateRates, hswap]

theorem calculateRates_zero_amount_noop_witness :
    exampleZeroAmountParams.amount = 0 ∧
    (calculateRates exampleZeroAmountParams).estimatedAmountIn = 0 ∧
    (calculateRates exampleZeroAmountParams).estimatedAmountOut = 0 ∧
    (calculateRates exampleZeroAmountParams).estimatedFeeAmount = 0 ∧
    (calculateRates exampleZeroAmountParams).estimatedEndSqrtPrice =
      exampleZeroAmountParams.currentPool.current_sqrt_price :=
  ⟨rfl, (calculateRates_zero_amount_noop exampleZeroAmountParams rfl).1,
    (calculateRates_zero_amount_noop exampleZeroAmountParams rfl).2.1,
    (calculateRates_zero_amount_noop exampleZeroAmountParams rfl).2.2.1,
    (calculateRates_zero_amount_noop exampleZeroAmountParams rfl).2.2.2⟩

theorem insertionSort_ticks_perm_eq (r : TickData → TickData → Prop) [DecidableRel r]
    (htotal : ∀ a b, r a b ∨ r b a) (htrans : ∀ a b c, r a b → r b c → r a c)
    (hkey : ∀ a b, r a b → r b a → a.index = b.index)
    (l l2 : List TickData) (hperm : l.Perm l2) (hnd : (l2.map TickData.index).Nodup) :
    List.insertionSort r l = List.insertionSort r l2 := by
  haveI : IsTotal TickData r := ⟨htotal⟩
  haveI : IsTrans TickData r := ⟨fun a b c => htrans a b c⟩
  haveI : IsAntisymm TickData (fun a b => (r a b ∧ a.index ≠ b.index) ∨ a = b) := by
    refine ⟨?_⟩
    intro a b hab hba
    rcases hab with ⟨h1, h2⟩ | h
    · rcases hba with ⟨h3, h4⟩ | h
      · exact absurd (hkey a b h1 h3) h2
      · exact h.symm
    · exact h
  have hps : (List.insertionSort r l).Perm (List.insertionSort r l2) :=
    (List.perm_insertionSort r l).trans (hperm.trans (List.perm_insertionSort r l2).symm)
  have hnd1 : ((List.insertionSort r l).map TickData.index).Nodup :=
    (List.Perm.nodup_iff (((List.perm_insertionSort r l).trans hperm).map TickData.index)).mpr hnd
  have hnd2 : ((List.insertionSort r l2).map TickData.index).Nodup :=
    (List.Perm.nodup_iff ((List.perm_insertionSort r l2).map TickData.index)).mpr hnd
  have hs1 : List.Sorted (fun a b => (r a b ∧ a.index ≠ b.index) ∨ a = b) (List.insertionSort r l) := by
    have hsr := List.sorted_insertionSort r l
    have hne := List.pairwise_map.mp hnd1
    exact (hsr.and hne).imp fun h => Or.inl h
  have hs2 : List.Sorted (fun a b => (r a b ∧ a.index ≠ b.index) ∨ a = b) (List.insertionSort r l2) := by
    have hsr := List.sorted_insertionSort r l2
    have hne := List.pairwise_map.mp hnd2
    exact (hsr.and hne).imp fun h => Or.inl h
  exact List.eq_of_perm_of_sorted hps hs1 hs2

theorem calculateRatesTicks_perm_eq (a2b : Bool) (l l2 : List TickData)
    (hperm : l.Perm l2) (hnd : (l2.map TickData.index).Nodup) :
    calculateRatesTicks a2b l = calculateRatesTicks a2b l2 := by
  unfold calculateRatesTicks
  cases a2b with
  | true =>
    rw [if_pos rfl]
    exact insertionSort_ticks_perm_eq _ (fun a b => le_total b.index a.index)
      (fun a b c hab hbc => le_trans hbc hab)
      (fun a b h1 h2 => le_antisymm h2 h1) l l2 hperm hnd
  | false =>
    rw [if_neg Bool.false_ne_true]
    exact insertionSort_ticks_perm_eq _ (fun a b => le_total a.index b.index)
      (fun a b c hab hbc => le_trans hab hbc)
      (fun a b h1 h2 => le_antisymm h1 h2) l l2 hperm hnd

/-- C4, counterexample: a tick sequence that is misordered for the
requested A-to-B traversal (ascending indices instead of descending) is
not rejected: calculateRates reorders it itself and computes a normal
result, so no MalformedTickData rejection exists in the code. -/
theorem calculateRates_accepts_misordered_ticks :
    calculateRatesTicks exampleMisorderedParams.a2b exampleMisorderedParams.swapTicks ≠
      exampleMisorderedParams.swapTicks ∧
    (calculateRates exampleMisorderedParams).estimatedAmountIn = 1000000000 ∧
    (calculateRates exampleMisorderedParams).estimatedAmountOut = 999999999 ∧
    (calculateRates exampleMisorderedParams).isExceed = false := by decide

/-- C4, amended: the simulator entry point does not validate tick order
and never rejects; it sorts the supplied sequence itself (descending by
index for A-to-B, ascending for B-to-A), so for sequences of pairwise
distinct indices the result does not depend on the supplied order. -/
theorem calculateRates_order_insensitive (params : CalculateRatesParams)
    (ts : List TickData) (hperm : ts.Perm params.swapTicks)
    (hnd : (params.swapTicks.map TickData.index).Nodup) :
    calculateRates { params with swapTicks := ts } = calculateRates params := by
  have ht : calculateRatesTicks params.a2b ts = calculateRatesTicks params.a2b params.swapTicks :=
    calculateRatesTicks_perm_eq params.a2b ts params.swapTicks hperm hnd
  unfold calculateRates calculateRatesSwapResult
  simp only []
  rw [ht]

theorem calculateRates_order_insensitive_witness :
    exampleSortedParams.swapTicks.Perm exampleMisorderedParams.swapTicks ∧
    (exampleMisorderedParams.swapTicks.map TickData.index).Nodup ∧
    calculateRates { exampleMisorderedParams with swapTicks := exampleSortedParams.swapTicks } =
      calculateRates exampleMisorderedParams :=
  ⟨by decide, by decide,
    calculateRates_order_insensitive exampleMisorderedParams exampleSortedParams.swapTicks
      (by decide) (by decide)⟩

/-- C8, counterexample: calculateRates sorts the supplied swapTicks array
in place (Array.prototype.sort mutates), so after the call the array the
caller passed no longer holds its original element order. -/
theorem calculateRates_mutates_tick_array :
    calculateRatesTicksAfter exampleMisorderedParams ≠ exampleMisorderedParams.swapTicks := by
  decide

/-- C8, amended: the pool snapshot is never mutated, but the swapTicks
array is reordered in place: after the call it holds a permutation of the
supplied ticks sorted for the traversal direction, and it is unchanged
exactly when the supplied order already was that traversal order. -/
theorem calculateRates_ticks_after_spec (params : CalculateRatesParams) :
    (calculateRatesTicksAfter params).Perm params.swapTicks ∧
    (params.a2b = true →
      List.Sorted (fun a b : TickData => b.index ≤ a.index) (calculateRatesTicksAfter params)) ∧
    (params.a2b = false →
      List.Sorted (fun a b : TickData => a.index ≤ b.index) (calculateRatesTicksAfter params)) ∧
    (params.a2b = true →
      List.Sorted (fun a b : TickData => b.index ≤ a.index) params.swapTicks →
      calculateRatesTicksAfter params = params.swapTicks) ∧
    (params.a2b = false →
      List.Sorted (fun a b : TickData => a.index ≤ b.index) params.swapTicks →
      calculateRatesTicksAfter params = params.swapTicks) := by
  haveI : IsTotal TickData (fun a b => b.index ≤ a.index) := ⟨fun a b => le_total b.index a.index⟩
  haveI : IsTrans TickData (fun a b => b.index ≤ a.index) := ⟨fun a b c hab hbc => le_trans hbc hab⟩
  haveI : IsTotal TickData (fun a b => a.index ≤ b.index) := ⟨fun a b => le_total a.index b.index⟩
  haveI : IsTrans TickData (fun a b => a.index ≤ b.index) := ⟨fun a b c hab hbc => le_trans hab hbc⟩
  unfold calculateRatesTicksAfter calculateRatesTicks
  cases h : params.a2b with
  | true =>
    rw [if_pos rfl]
    exact ⟨List.perm_insertionSort _ _,
      fun _ => List.sorted_insertionSort _ _,
      fun hf => absurd hf (by simp),
      fun _ hs => hs.insertionSort_eq,
      fun hf => absurd hf (by simp)⟩
  | false =>
    rw [if_neg Bool.false_ne_true]
    exact ⟨List.perm_insertionSort _ _,
      fun hf => absurd hf (by simp),
      fun _ => List.sorted_insertionSort _ _,
      fun hf => absurd hf (by simp),
      fun _ hs => hs.insertionSort_eq⟩

theorem calculateRates_ticks_after_spec_witness :
    (calculateRatesTicksAfter exampleSortedParams).Perm exampleSortedParams.swapTicks ∧
    exampleSortedParams.a2b = true ∧
    List.Sorted (fun a b : TickData => b.index ≤ a.index) exampleSortedParams.swapTicks ∧
    calculateRatesTicksAfter exampleSortedParams = exampleSortedParams.swapTicks :=
  ⟨(calculateRates_ticks_after_spec exampleSortedParams).1, rfl, by decide,
    (calculateRates_ticks_after_spec exampleSortedParams).2.2.2.1 rfl (by decide)⟩
